import Mathlib

/-!
Verification of the spotifaux backend (src/spotifaux-backend/main.py) against
its natural-language specification.

The Python module keeps all state in process-wide lists/dicts (`RAW_USERS`,
`RAW_PLAYLISTS`, `USERS_BY_EMAIL`, `TRACK_BY_ID`) and rewrites whole JSON files
on every mutation.  We embed that state as an explicit `ServerState` record and
each endpoint/helper as a function `ServerState → ... → Except HErr α × ServerState`:
Python raises `HTTPException` (or an unhandled `ValueError`), and because
mutation happens in place, partial mutations performed before a raise are
retained — hence every operation returns the (possibly mutated) state even in
the error case.

Timestamps (`datetime.utcnow().isoformat()+"Z"`) are threaded in as opaque
string parameters; token time is threaded as a `Nat` (seconds).
-/

namespace Spotifaux

/-- Embeds the Python dicts stored in `RAW_PLAYLISTS` (all id fields pass
through `int(...)` in the source, so we use `Int`; `tracks` is a list of
track ids; the timestamps are ISO strings). -/
structure Playlist where
  id : Int
  user_id : Int
  name : String
  tracks : List Int
  created_at : String
  updated_at : String
  deriving Repr, DecidableEq

/-- Embeds the Python user dicts stored in `RAW_USERS` (`password` holds the
stored password hash; `user.get("password", "")` defaults are represented by
the field itself). -/
structure User where
  id : Int
  email : String
  password : String
  name : String
  role : String
  deriving Repr, DecidableEq

/-- Errors an operation can surface: `http s d` embeds
`HTTPException(status_code=s, detail=d)`; `valueError` embeds an unhandled
Python `ValueError` (e.g. from `int(...)` on a non-numeric string), which is
not an HTTP response at all. -/
inductive HErr where
  | http (status : Nat) (detail : String)
  | valueError (msg : String)
  deriving Repr, DecidableEq

/-- The process-wide mutable state of main.py: `rawUsers` = `RAW_USERS`,
`usersByEmail` = the `USERS_BY_EMAIL` dict as an association list (first
matching key wins on lookup, as built once from `RAW_USERS` and extended by
signup), `rawPlaylists` = `RAW_PLAYLISTS`, `trackIds` = the key set of the
immutable `TRACK_BY_ID`, and `savedUsers`/`savedPlaylists` = the contents of
the persisted JSON files (rewritten by `save_users_to_file` /
`save_playlists_to_file`). -/
structure ServerState where
  rawUsers : List User
  usersByEmail : List (String × User)
  rawPlaylists : List Playlist
  trackIds : List Int
  savedUsers : List User
  savedPlaylists : List Playlist
  deriving Repr, DecidableEq

/-- Dict lookup `USERS_BY_EMAIL.get(email)`: first entry with the given key. -/
def lookupEmail (m : List (String × User)) (k : String) : Option User :=
  match m with
  | [] => none
  | (k2, u) :: rest => if k2 = k then some u else lookupEmail rest k

/-- Leading/trailing whitespace removal on a character list (the behavior of
Python `str.strip()` with no argument, and of the stripping `int(str)` does). -/
def stripSpaces (cs : List Char) : List Char :=
  ((cs.dropWhile Char.isWhitespace).reverse.dropWhile Char.isWhitespace).reverse

/-- Embeds Python `s.strip()`. -/
def pyStrip (s : String) : String :=
  String.mk (stripSpaces s.toList)

/-- Embeds Python `s.lower()` (ASCII case folding; every in-scope use is on
ASCII email text). -/
def pyLower (s : String) : String :=
  String.mk (s.toList.map Char.toLower)

/-- Python `max(l, default=0)` over ints: 0 only when the list is empty. -/
def pyMaxDefault0 (l : List Int) : Int :=
  match l with
  | [] => 0
  | x :: xs => xs.foldl max x

/-- Embeds `next_playlist_id`: `max((int(p["id"]) for p in RAW_PLAYLISTS), default=0) + 1`. -/
def next_playlist_id (ps : List Playlist) : Int :=
  pyMaxDefault0 (ps.map (fun p => p.id)) + 1

/-- Embeds `next_user_id`: `max((int(u["id"]) for u in RAW_USERS), default=0) + 1`. -/
def next_user_id (us : List User) : Int :=
  pyMaxDefault0 (us.map (fun u => u.id)) + 1

/-- Embeds `validate_track_ids`: collects the ids not in `TRACK_BY_ID` and
raises 400 naming them when the list is non-empty. -/
def validate_track_ids (catalog : List Int) (track_ids : List Int) : Except HErr Unit :=
  let bad := track_ids.filter (fun tid => ¬ tid ∈ catalog)
  if bad.isEmpty then Except.ok ()
  else Except.error (HErr.http 400 ("Unknown track ids: " ++ toString bad))

/-- Embeds `get_playlist_or_404`: linear scan for the first playlist with
`int(p["id"]) == int(pid)`, else 404. -/
def get_playlist_or_404 (ps : List Playlist) (pid : Int) : Except HErr Playlist :=
  match ps.find? (fun p => p.id = pid) with
  | some p => Except.ok p
  | none => Except.error (HErr.http 404 "Playlist not found")

/-- Embeds `assert_owner`: 403 when `int(playlist["user_id"]) != int(user["id"])`. -/
def assert_owner (playlist : Playlist) (user : User) : Except HErr Unit :=
  if playlist.user_id ≠ user.id then Except.error (HErr.http 403 "Forbidden")
  else Except.ok ()

/-- In-place mutation of the dict returned by `get_playlist_or_404`: replacing
the first list element with the given id models rebinding that shared object. -/
def setFirstById (ps : List Playlist) (pid : Int) (v : Playlist) : List Playlist :=
  match ps with
  | [] => []
  | p :: rest => if p.id = pid then v :: rest else p :: setFirstById rest pid v

/-- The `RAW_PLAYLISTS.pop(i); break` loop of `delete_playlist`: removes the
first element with the given id. -/
def removeFirstById (ps : List Playlist) (pid : Int) : List Playlist :=
  match ps with
  | [] => []
  | p :: rest => if p.id = pid then rest else p :: removeFirstById rest pid

/-- Request body `PlaylistIn` (`name: str`, `tracks: list[int] = []`). -/
structure PlaylistIn where
  name : String
  tracks : List Int
  deriving Repr, DecidableEq

/-- Request body `PlaylistUpdate` (`name: Optional[str]`, `tracks: Optional[list[int]]`). -/
structure PlaylistUpdate where
  name : Option String
  tracks : Option (List Int)
  deriving Repr, DecidableEq

/-- Embeds `create_playlist` (the authenticated handler body, with `current`
the resolved user and `now` the timestamp): validate track ids, build the new
record with `next_playlist_id`, trimmed name and int-coerced tracks, append it
and persist.  Response enrichment (`populate_playlist`) is presentation only
and not modelled here. -/
def create_playlist (st : ServerState) (current : User) (body : PlaylistIn)
    (now : String) : Except HErr Playlist × ServerState :=
  match validate_track_ids st.trackIds body.tracks with
  | Except.error e => (Except.error e, st)
  | Except.ok _ =>
    let new_pl : Playlist :=
      { id := next_playlist_id st.rawPlaylists
        user_id := current.id
        name := pyStrip body.name
        tracks := body.tracks
        created_at := now
        updated_at := now }
    let ps := st.rawPlaylists ++ [new_pl]
    (Except.ok new_pl, { st with rawPlaylists := ps, savedPlaylists := ps })

/-- Embeds `update_playlist`.  Faithful to source order: 404 lookup, owner
check, then `pl["name"]` is assigned (in place) when `body.name` is provided,
then — only if `body.tracks` is provided — `validate_track_ids` may raise 400
with the name mutation already applied and no save performed; on success
`pl["tracks"]` and `pl["updated_at"]` are assigned and the file is saved. -/
def update_playlist (st : ServerState) (current : User) (pid : Int)
    (body : PlaylistUpdate) (now : String) : Except HErr Playlist × ServerState :=
  match get_playlist_or_404 st.rawPlaylists pid with
  | Except.error e => (Except.error e, st)
  | Except.ok pl =>
    match assert_owner pl current with
    | Except.error e => (Except.error e, st)
    | Except.ok _ =>
      let pl1 := match body.name with
        | some n => { pl with name := pyStrip n }
        | none => pl
      let st1 := { st with rawPlaylists := setFirstById st.rawPlaylists pid pl1 }
      match body.tracks with
      | some ts =>
        match validate_track_ids st.trackIds ts with
        | Except.error e => (Except.error e, st1)
        | Except.ok _ =>
          let pl3 := { pl1 with tracks := ts, updated_at := now }
          let ps := setFirstById st1.rawPlaylists pid pl3
          (Except.ok pl3, { st1 with rawPlaylists := ps, savedPlaylists := ps })
      | none =>
        let pl3 := { pl1 with updated_at := now }
        let ps := setFirstById st1.rawPlaylists pid pl3
        (Except.ok pl3, { st1 with rawPlaylists := ps, savedPlaylists := ps })

/-- Embeds `delete_playlist`: 404 lookup, owner check, remove the first
element with the id, persist. -/
def delete_playlist (st : ServerState) (current : User) (pid : Int) :
    Except HErr Unit × ServerState :=
  match get_playlist_or_404 st.rawPlaylists pid with
  | Except.error e => (Except.error e, st)
  | Except.ok pl =>
    match assert_owner pl current with
    | Except.error e => (Except.error e, st)
    | Except.ok _ =>
      let ps := removeFirstById st.rawPlaylists pid
      (Except.ok (), { st with rawPlaylists := ps, savedPlaylists := ps })

/-- Embeds the handler `get_playlist` (minus response enrichment, which is
read-only presentation): 404 lookup then owner check. -/
def get_playlist (st : ServerState) (current : User) (pid : Int) :
    Except HErr Playlist :=
  match get_playlist_or_404 st.rawPlaylists pid with
  | Except.error e => Except.error e
  | Except.ok pl =>
    match assert_owner pl current with
    | Except.error e => Except.error e
    | Except.ok _ => Except.ok pl

/-! Credential store.  The source wraps the external passlib
`CryptContext(schemes=["bcrypt_sha256"])`; that library code is not part of
this repository, so the digest is modelled (spec section 4.1) as an injective
tagged encoding with `verify` its inverse check.  Only the round-trip contract
`verify p (hash p) = true` and injectivity are relied on in proofs; the
library's behavior on strings that are not digests at all is NOT modelled. -/

/-- Modelled from the spec: `pwd_context.hash` of the external passlib
bcrypt_sha256 context, idealized as an injective tagged encoding of the
password (spec 4.1: salted adaptive digest with deterministic verification). -/
def pwd_context_hash (password : String) : String :=
  "bcrypt_sha256$" ++ password

/-- Modelled from the spec: `pwd_context.verify` of the external passlib
context — true exactly when the hash is the digest of the password. -/
def pwd_context_verify (password h : String) : Bool :=
  pwd_context_hash password = h

/-- Embeds `hash_password` (the `_ensure_str` coercion is the identity on
values that are already text, which is what every in-scope caller passes). -/
def hash_password (password : String) : String :=
  pwd_context_hash password

/-- Embeds `verify_password`. -/
def verify_password (plain_password hashed_password : String) : Bool :=
  pwd_context_verify plain_password hashed_password

/-! Token service.  The source uses the external jose library
(`jwt.encode`/`jwt.decode` with HS256); modelled (spec sections 4.2 and 3,
Session Token) as a record carrying the claims and the signing secret, with
decode checking the secret matches and `expiry > now`. -/

/-- The claims dictionary passed to `jwt.encode`: an optional `sub` string and
the `exp` timestamp (seconds). -/
structure Claims where
  sub : Option String
  exp : Nat
  deriving Repr, DecidableEq

/-- Modelled from the spec: a signed token of the external jose library — the
payload plus the symmetric signature, represented by the signing secret. -/
structure Token where
  claims : Claims
  sig : String
  deriving Repr, DecidableEq

/-- Modelled from the spec: `jwt.encode(claims, secret, HS256)`. -/
def jwt_encode (claims : Claims) (secret : String) : Token :=
  { claims := claims, sig := secret }

/-- Modelled from the spec: `jwt.decode(token, secret, [HS256])` — fails
(`JWTError`, here `none`) on a signature made with a different secret or an
expiry not in the future (spec 4.2: verifies signature and `expiry > now`). -/
def jwt_decode (t : Token) (secret : String) (now : Nat) : Option Claims :=
  if t.sig = secret ∧ now < t.claims.exp then some t.claims else none

/-- `ACCESS_TOKEN_EXPIRE_MINUTES` default (env override out of scope). -/
def ACCESS_TOKEN_EXPIRE_MINUTES : Nat := 60

/-- Embeds `create_access_token`: `exp = utcnow() + (expires_delta or 60 min)`
(seconds), then encode.  Every in-scope caller passes `{"sub": str(uid)}`, so
the data dict is embedded as its `sub` entry. -/
def create_access_token (sub : Option String) (secret : String) (now : Nat)
    (expires_delta : Option Nat) : Token :=
  jwt_encode { sub := sub, exp := now + expires_delta.getD (ACCESS_TOKEN_EXPIRE_MINUTES * 60) } secret

/-! Python `int(...)` on strings and `str(...)` on ints, needed by
`get_current_user` (`int(uid)`) and token issuance (`str(user["id"])`). -/

/-- Decimal value of a digit character. -/
def digitVal (c : Char) : Nat := c.toNat - 48

/-- Value of a digit string, most significant first. -/
def digitsVal (cs : List Char) : Nat :=
  cs.foldl (fun a c => a * 10 + digitVal c) 0

/-- Parse a non-empty all-digit character list, else `none`. -/
def parseDigits (cs : List Char) : Option Nat :=
  if cs.isEmpty then none
  else if cs.all Char.isDigit then some (digitsVal cs) else none

/-- Python `int(s)` on the stripped character list: optional single sign
followed by a non-empty digit run.  (Python additionally allows underscore
digit separators; no in-scope string contains one.) -/
def pyIntCore (cs : List Char) : Option Int :=
  match cs with
  | [] => none
  | c :: rest =>
    if c = '+' then (parseDigits rest).map Int.ofNat
    else if c = '-' then (parseDigits rest).map (fun n => -(Int.ofNat n))
    else (parseDigits (c :: rest)).map Int.ofNat

/-- Embeds Python `int(s)` for a string `s`: `some n` on success, `none` when
Python would raise `ValueError`. -/
def pyInt (s : String) : Option Int :=
  pyIntCore (stripSpaces s.toList)

/-- Decimal digits of a natural number, most significant first. -/
def natToDigits (n : Nat) : List Char :=
  if h : n < 10 then [Char.ofNat (48 + n)]
  else natToDigits (n / 10) ++ [Char.ofNat (48 + n % 10)]
  decreasing_by exact Nat.div_lt_self (by omega) (by omega)

/-- Embeds Python `str(i)` for an int: decimal digits with a leading minus
sign for negative values. -/
def pyStrOfInt (i : Int) : String :=
  match i with
  | Int.ofNat m => String.mk (natToDigits m)
  | Int.negSucc m => String.mk ('-' :: natToDigits (m + 1))

/-- The user-scanning loop of `get_current_user`: `int(u["id"]) == int(uid)`
is evaluated per iteration, so `int(uid)` on a non-numeric subject raises
`ValueError` on the FIRST iteration — and is never evaluated when `RAW_USERS`
is empty. -/
def find_user_loop (users : List User) (uid : String) : Except HErr (Option User) :=
  match users with
  | [] => Except.ok none
  | u :: rest =>
    match pyInt uid with
    | none => Except.error (HErr.valueError ("invalid literal for int with base 10: " ++ uid))
    | some n => if u.id = n then Except.ok (some u) else find_user_loop rest uid

/-- Embeds `get_current_user`: 401 on missing cookie; decode failure
(`JWTError`) → 401; missing `sub` claim → 401; then the scan over `RAW_USERS`
(which may raise `ValueError` via `int(uid)`); no match → 401 "User not found". -/
def get_current_user (st : ServerState) (access_token : Option Token)
    (secret : String) (now : Nat) : Except HErr User :=
  match access_token with
  | none => Except.error (HErr.http 401 "Not authenticated")
  | some tok =>
    match jwt_decode tok secret now with
    | none => Except.error (HErr.http 401 "Invalid or expired token")
    | some payload =>
      match payload.sub with
      | none => Except.error (HErr.http 401 "Invalid token payload")
      | some uid =>
        match find_user_loop st.rawUsers uid with
        | Except.error e => Except.error e
        | Except.ok (some u) => Except.ok u
        | Except.ok none => Except.error (HErr.http 401 "User not found")

/-! Signup and login. -/

/-- Request body `SignupIn` (`email`, `password`, `name: Optional[str] = ""`;
the pydantic `EmailStr` format check belongs to the excluded validation
layer, so `email` is an arbitrary string here). -/
structure SignupIn where
  email : String
  password : String
  name : String
  deriving Repr, DecidableEq

/-- Request body `LoginIn`. -/
structure LoginIn where
  email : String
  password : String
  deriving Repr, DecidableEq

/-- Python `email.split("@")[0]`: the part before the first at-sign. -/
def emailLocalPart (email : String) : String :=
  (email.splitOn "@").headD email

/-- Embeds `signup`: lower+strip the email; 400 if already registered; 400 if
the password is shorter than 6 characters; otherwise build the user (hashed
password, name defaulting to the email local part when the supplied name is
falsy, role "user"), append to `RAW_USERS`, index in `USERS_BY_EMAIL`,
persist, and return the freshly issued token and user (cookie setting is the
HTTP layer). -/
def signup (st : ServerState) (body : SignupIn) (secret : String) (now : Nat) :
    Except HErr (Token × User) × ServerState :=
  let email := pyStrip (pyLower body.email)
  match lookupEmail st.usersByEmail email with
  | some _ => (Except.error (HErr.http 400 "Email already registered"), st)
  | none =>
    if body.password.length < 6 then
      (Except.error (HErr.http 400 "Password must be at least 6 characters"), st)
    else
      let new_user : User :=
        { id := next_user_id st.rawUsers
          email := email
          password := hash_password body.password
          name := if body.name = "" then emailLocalPart email else body.name
          role := "user" }
      let us := st.rawUsers ++ [new_user]
      let st1 : ServerState :=
        { st with rawUsers := us
                  usersByEmail := st.usersByEmail ++ [(email, new_user)]
                  savedUsers := us }
      let token := create_access_token (some (pyStrOfInt new_user.id)) secret now none
      (Except.ok (token, new_user), st1)

/-- Embeds `login`: lower+strip the email, dict lookup, password check (401 on
either failure), then token issuance.  State is never mutated. -/
def login (st : ServerState) (body : LoginIn) (secret : String) (now : Nat) :
    Except HErr (Token × User) :=
  let email := pyStrip (pyLower body.email)
  match lookupEmail st.usersByEmail email with
  | none => Except.error (HErr.http 401 "Invalid email or password")
  | some user =>
    if verify_password body.password user.password then
      Except.ok (create_access_token (some (pyStrOfInt user.id)) secret now none, user)
    else
      Except.error (HErr.http 401 "Invalid email or password")

/-- Retrieval of a user by email as performed everywhere in the source:
`USERS_BY_EMAIL` lookup under the lower-cased, stripped key. -/
def find_by_email (st : ServerState) (email : String) : Option User :=
  lookupEmail st.usersByEmail (pyStrip (pyLower email))

/-! Concrete states used to instantiate the theorems: a catalog containing
exactly track 1, user A (id 1) owning playlist 1, and user B (id 2). -/

/-- User A, id 1. -/
def uA : User := ⟨1, "a@x.com", "h", "a", "user"⟩

/-- User B, id 2. -/
def uB : User := ⟨2, "b@x.com", "h2", "b", "user"⟩

/-- A playlist owned by user A. -/
def plOld : Playlist := ⟨1, 1, "Old", [1], "t0", "t0"⟩

/-- Base state: both users loaded, playlist 1 stored and persisted, catalog = track 1. -/
def stBase : ServerState :=
  ⟨[uA, uB], [("a@x.com", uA), ("b@x.com", uB)], [plOld], [1], [uA, uB], [plOld]⟩

/-- State with user A only and no playlists. -/
def stNoPl : ServerState := ⟨[uA], [("a@x.com", uA)], [], [1], [uA], []⟩

/-- Completely empty state (fresh deployment: `playlists.json` missing is an
empty set, `users.json` an empty array). -/
def stEmpty : ServerState := ⟨[], [], [], [], [], []⟩

/-! Helper lemmas. -/

theorem lookupEmail_append_right (m : List (String × User)) (k : String) (v : User)
    (h : lookupEmail m k = none) : lookupEmail (m ++ [(k, v)]) k = some v := by
  induction m with
  | nil => simp [lookupEmail]
  | cons p rest ih =>
    obtain ⟨k2, u⟩ := p
    by_cases hk : k2 = k
    · simp [lookupEmail, hk] at h
    · simp only [lookupEmail, List.cons_append, if_neg hk] at h ⊢
      exact ih h

theorem le_foldl_max (xs : List Int) (x y : Int) (h : y ≤ x ∨ y ∈ xs) :
    y ≤ xs.foldl max x := by
  induction xs generalizing x with
  | nil => simpa using h
  | cons z zs ih =>
    simp only [List.foldl_cons]
    rcases h with h | h
    · exact ih (max x z) (Or.inl (le_trans h (le_max_left x z)))
    · rcases List.mem_cons.mp h with rfl | h
      · exact ih (max x y) (Or.inl (le_max_right x y))
      · exact ih (max x z) (Or.inr h)

theorem mem_lt_pyMaxDefault0_add_one (l : List Int) (y : Int) (h : y ∈ l) :
    y < pyMaxDefault0 l + 1 := by
  cases l with
  | nil => simp at h
  | cons x xs =>
    show y < xs.foldl max x + 1
    rcases List.mem_cons.mp h with rfl | h
    · have := le_foldl_max xs y y (Or.inl le_rfl); omega
    · have := le_foldl_max xs x y (Or.inr h); omega

/-- Every currently stored playlist id is strictly below the next assigned id. -/
theorem id_lt_next_playlist_id (ps : List Playlist) (p : Playlist) (h : p ∈ ps) :
    p.id < next_playlist_id ps := by
  have hmem : p.id ∈ ps.map (fun q => q.id) := List.mem_map_of_mem _ h
  exact mem_lt_pyMaxDefault0_add_one (ps.map (fun q => q.id)) p.id hmem

theorem find?_eq_some_of_mem_unique (ps : List Playlist) (p : Playlist)
    (huniq : ps.Pairwise (fun a b => a.id ≠ b.id)) (hmem : p ∈ ps) :
    ps.find? (fun q => q.id = p.id) = some p := by
  induction ps with
  | nil => simp at hmem
  | cons q rest ih =>
    rcases List.mem_cons.mp hmem with rfl | hmem
    · exact List.find?_cons_of_pos _ (by simp)
    · have hne : q.id ≠ p.id := (List.pairwise_cons.mp huniq).1 p hmem
      rw [List.find?_cons_of_neg _ (by simp [hne])]
      exact ih (List.pairwise_cons.mp huniq).2 hmem

theorem find?_eq_none_of_forall (ps : List Playlist) (pid : Int)
    (h : ∀ q ∈ ps, q.id ≠ pid) : ps.find? (fun q => q.id = pid) = none := by
  induction ps with
  | nil => rfl
  | cons q rest ih =>
    rw [List.find?_cons_of_neg _ (by simp [h q (List.mem_cons_self q rest)])]
    exact ih (fun r hr => h r (List.mem_cons_of_mem q hr))

theorem find?_setFirstById (ps : List Playlist) (pid : Int) (pl v : Playlist)
    (hfind : ps.find? (fun q => q.id = pid) = some pl) (hv : v.id = pid) :
    (setFirstById ps pid v).find? (fun q => q.id = pid) = some v := by
  induction ps with
  | nil => simp [List.find?] at hfind
  | cons q rest ih =>
    by_cases hq : q.id = pid
    · rw [setFirstById, if_pos hq]
      exact List.find?_cons_of_pos _ (by simp [hv])
    · rw [List.find?_cons_of_neg _ (by simp [hq])] at hfind
      rw [setFirstById, if_neg hq, List.find?_cons_of_neg _ (by simp [hq])]
      exact ih hfind

theorem setFirstById_setFirstById (ps : List Playlist) (pid : Int) (v1 v2 : Playlist)
    (hv1 : v1.id = pid) :
    setFirstById (setFirstById ps pid v1) pid v2 = setFirstById ps pid v2 := by
  induction ps with
  | nil => rfl
  | cons q rest ih =>
    by_cases hq : q.id = pid
    · simp [setFirstById, if_pos hq, hv1]
    · simp only [setFirstById, if_neg hq]
      rw [ih]

theorem digitChar_facts (m : Nat) (h : m < 10) :
    (Char.ofNat (48 + m)).isDigit = true ∧ digitVal (Char.ofNat (48 + m)) = m ∧
    (Char.ofNat (48 + m)).isWhitespace = false ∧
    Char.ofNat (48 + m) ≠ '+' ∧ Char.ofNat (48 + m) ≠ '-' := by
  interval_cases m <;> exact (by decide)

theorem natToDigits_shape (n : Nat) :
    natToDigits n ≠ [] ∧ ∀ c ∈ natToDigits n, ∃ m, m < 10 ∧ c = Char.ofNat (48 + m) := by
  induction n using Nat.strong_induction_on with
  | _ n ih =>
    by_cases h : n < 10
    · rw [natToDigits, dif_pos h]
      refine ⟨by simp, ?_⟩
      intro c hc
      simp only [List.mem_singleton] at hc
      exact ⟨n, h, hc⟩
    · rw [natToDigits, dif_neg h]
      have hlt : n / 10 < n := Nat.div_lt_self (by omega) (by omega)
      obtain ⟨h1, h2⟩ := ih (n / 10) hlt
      refine ⟨by simp [h1], ?_⟩
      intro c hc
      rcases List.mem_append.mp hc with hc | hc
      · exact h2 c hc
      · simp only [List.mem_singleton] at hc
        exact ⟨n % 10, Nat.mod_lt _ (by omega), hc⟩

theorem digitsVal_append_singleton (cs : List Char) (c : Char) :
    digitsVal (cs ++ [c]) = digitsVal cs * 10 + digitVal c := by
  simp [digitsVal, List.foldl_append]

theorem digitsVal_natToDigits (n : Nat) : digitsVal (natToDigits n) = n := by
  induction n using Nat.strong_induction_on with
  | _ n ih =>
    by_cases h : n < 10
    · rw [natToDigits, dif_pos h]
      have := (digitChar_facts n h).2.1
      simp [digitsVal, this]
    · rw [natToDigits, dif_neg h]
      have hlt : n / 10 < n := Nat.div_lt_self (by omega) (by omega)
      rw [digitsVal_append_singleton, ih (n / 10) hlt,
        (digitChar_facts (n % 10) (Nat.mod_lt _ (by omega))).2.1]
      omega

theorem parseDigits_natToDigits (n : Nat) : parseDigits (natToDigits n) = some n := by
  obtain ⟨hne, hsh⟩ := natToDigits_shape n
  have hall : (natToDigits n).all Char.isDigit = true := by
    rw [List.all_eq_true]
    intro c hc
    obtain ⟨m, hm, rfl⟩ := hsh c hc
    exact (digitChar_facts m hm).1
  rw [parseDigits, if_neg (by simpa using hne), if_pos hall, digitsVal_natToDigits]

theorem dropWhile_eq_self_of_all_false (p : Char → Bool) (l : List Char)
    (h : ∀ c ∈ l, p c = false) : l.dropWhile p = l := by
  cases l with
  | nil => rfl
  | cons c rest => simp [List.dropWhile_cons, h c (List.mem_cons_self c rest)]

theorem stripSpaces_eq_self (cs : List Char) (h : ∀ c ∈ cs, c.isWhitespace = false) :
    stripSpaces cs = cs := by
  unfold stripSpaces
  rw [dropWhile_eq_self_of_all_false _ cs h,
    dropWhile_eq_self_of_all_false _ cs.reverse (fun c hc => h c (List.mem_reverse.mp hc)),
    List.reverse_reverse]

theorem pyIntCore_natToDigits (n : Nat) : pyIntCore (natToDigits n) = some (Int.ofNat n) := by
  obtain ⟨hne, hsh⟩ := natToDigits_shape n
  cases hds : natToDigits n with
  | nil => exact absurd hds hne
  | cons c rest =>
    obtain ⟨m, hm, hc⟩ := hsh c (by rw [hds]; exact List.mem_cons_self c rest)
    obtain ⟨_, _, _, hplus, hminus⟩ := digitChar_facts m hm
    rw [pyIntCore, if_neg (hc ▸ hplus), if_neg (hc ▸ hminus), ← hds,
      parseDigits_natToDigits]
    rfl

theorem pyInt_pyStrOfInt (i : Int) : pyInt (pyStrOfInt i) = some i := by
  cases i with
  | ofNat m =>
    have hsh := (natToDigits_shape m).2
    have hws : ∀ c ∈ natToDigits m, c.isWhitespace = false := by
      intro c hc
      obtain ⟨k, hk, rfl⟩ := hsh c hc
      exact (digitChar_facts k hk).2.2.1
    show pyIntCore (stripSpaces (String.mk (natToDigits m)).toList) = some (Int.ofNat m)
    rw [show (String.mk (natToDigits m)).toList = natToDigits m from rfl,
      stripSpaces_eq_self _ hws, pyIntCore_natToDigits]
  | negSucc m =>
    have hsh := (natToDigits_shape (m + 1)).2
    have hws : ∀ c ∈ '-' :: natToDigits (m + 1), c.isWhitespace = false := by
      intro c hc
      rcases List.mem_cons.mp hc with rfl | hc
      · decide
      · obtain ⟨k, hk, rfl⟩ := hsh c hc
        exact (digitChar_facts k hk).2.2.1
    show pyIntCore (stripSpaces (String.mk ('-' :: natToDigits (m + 1))).toList) =
      some (Int.negSucc m)
    rw [show (String.mk ('-' :: natToDigits (m + 1))).toList = '-' :: natToDigits (m + 1)
        from rfl,
      stripSpaces_eq_self _ hws]
    rw [pyIntCore, if_neg (by decide), if_pos rfl, parseDigits_natToDigits]
    simp [Int.negSucc_eq]

theorem validate_track_ids_ok (catalog ts : List Int)
    (h : (ts.filter (fun tid => ¬ tid ∈ catalog)).isEmpty = true) :
    validate_track_ids catalog ts = Except.ok () := by
  simp only [validate_track_ids]
  rw [h]
  rfl

theorem assert_owner_ok (pl : Playlist) (u : User) (h : pl.user_id = u.id) :
    assert_owner pl u = Except.ok () := by
  unfold assert_owner
  rw [if_neg (by simp [h])]

theorem get_playlist_or_404_of_find (ps : List Playlist) (pid : Int) (pl : Playlist)
    (h : ps.find? (fun q => q.id = pid) = some pl) :
    get_playlist_or_404 ps pid = Except.ok pl := by
  unfold get_playlist_or_404
  rw [h]

theorem get_playlist_or_404_of_none (ps : List Playlist) (pid : Int)
    (h : ps.find? (fun q => q.id = pid) = none) :
    get_playlist_or_404 ps pid = Except.error (HErr.http 404 "Playlist not found") := by
  unfold get_playlist_or_404
  rw [h]

theorem id_eq_of_find (ps : List Playlist) (pid : Int) (pl : Playlist)
    (h : ps.find? (fun q => q.id = pid) = some pl) : pl.id = pid := by
  have := List.find?_some h
  simpa using this

theorem find_user_loop_finds (users : List User) (s : String) (n : Int)
    (hparse : pyInt s = some n) (hmem : ∃ u ∈ users, u.id = n) :
    ∃ u2, find_user_loop users s = Except.ok (some u2) ∧ u2.id = n ∧ u2 ∈ users := by
  induction users with
  | nil =>
    obtain ⟨u, hu, _⟩ := hmem
    simp at hu
  | cons v rest ih =>
    by_cases hv : v.id = n
    · exact ⟨v, by simp [find_user_loop, hparse, hv], hv, List.mem_cons_self v rest⟩
    · obtain ⟨u, hu, hid⟩ := hmem
      rcases List.mem_cons.mp hu with rfl | hu
      · exact absurd hid hv
      · obtain ⟨u2, h1, h2, h3⟩ := ih ⟨u, hu, hid⟩
        exact ⟨u2, by simp [find_user_loop, hparse, hv, h1], h2, List.mem_cons_of_mem v h3⟩

/-! Claim theorems. -/

/-- Claim C2: for every stored playlist `p` (stored ids being pairwise
distinct, the documented invariant) and every authenticated user whose id
differs from `p.user_id`, get/update/delete on `p.id` each fail with 403
Forbidden, and after the failed delete the playlist still exists unchanged
(the whole state is unchanged); when no stored playlist has the requested id,
all three operations fail with 404 Not Found instead, without mutation. -/
theorem C2_ownership_forbidden_and_missing_not_found
    (st : ServerState) (current : User) (p : Playlist) (pid : Int)
    (body : PlaylistUpdate) (now : String)
    (huniq : List.Pairwise (fun a b => a.id ≠ b.id) st.rawPlaylists) :
    (p ∈ st.rawPlaylists → p.user_id ≠ current.id →
      get_playlist st current p.id = Except.error (HErr.http 403 "Forbidden") ∧
      update_playlist st current p.id body now =
        (Except.error (HErr.http 403 "Forbidden"), st) ∧
      delete_playlist st current p.id =
        (Except.error (HErr.http 403 "Forbidden"), st) ∧
      p ∈ (delete_playlist st current p.id).2.rawPlaylists) ∧
    ((∀ q ∈ st.rawPlaylists, q.id ≠ pid) →
      get_playlist st current pid = Except.error (HErr.http 404 "Playlist not found") ∧
      update_playlist st current pid body now =
        (Except.error (HErr.http 404 "Playlist not found"), st) ∧
      delete_playlist st current pid =
        (Except.error (HErr.http 404 "Playlist not found"), st)) := by
  constructor
  · intro hmem hne
    have hfind := find?_eq_some_of_mem_unique st.rawPlaylists p huniq hmem
    have hget := get_playlist_or_404_of_find _ _ _ hfind
    have hown : assert_owner p current = Except.error (HErr.http 403 "Forbidden") := by
      unfold assert_owner
      rw [if_pos hne]
    refine ⟨?_, ?_, ?_, ?_⟩
    · simp only [get_playlist, hget, hown]
    · simp only [update_playlist, hget, hown]
    · simp only [delete_playlist, hget, hown]
    · simp only [delete_playlist, hget, hown]
      exact hmem
  · intro hnone
    have hfind := find?_eq_none_of_forall st.rawPlaylists pid hnone
    have hget := get_playlist_or_404_of_none _ _ hfind
    refine ⟨?_, ?_, ?_⟩
    · simp only [get_playlist, hget]
    · simp only [update_playlist, hget]
    · simp only [delete_playlist, hget]

/-- Claim C2 witness: user B (id 2) on playlist 1 owned by user A, and the
missing id 7, in the base state. -/
theorem C2_witness :
    List.Pairwise (fun a b => a.id ≠ b.id) stBase.rawPlaylists ∧
    plOld ∈ stBase.rawPlaylists ∧ plOld.user_id ≠ uB.id ∧
    (∀ q ∈ stBase.rawPlaylists, q.id ≠ 7) ∧
    delete_playlist stBase uB plOld.id = (Except.error (HErr.http 403 "Forbidden"), stBase) ∧
    get_playlist stBase uB 7 = Except.error (HErr.http 404 "Playlist not found") := by
  refine ⟨by decide, by decide, by decide, by decide, ?_, ?_⟩
  · exact ((C2_ownership_forbidden_and_missing_not_found stBase uB plOld 7
      ⟨none, none⟩ "t1" (by decide)).1 (by decide) (by decide)).2.2.1
  · exact ((C2_ownership_forbidden_and_missing_not_found stBase uB plOld 7
      ⟨none, none⟩ "t1" (by decide)).2 (by decide)).1

/-- Claim C1 counterexample: updating playlist 1 (name "Old") with a new name
and the unknown track id 99 fails with 400, yet the stored playlist's name is
now "New" — the stored playlist is NOT exactly what it was before the call, so
the claim as stated is false (only the persisted file set is unchanged). -/
theorem C1_counterexample :
    (update_playlist stBase uA 1 ⟨some "New", some [99]⟩ "t1").1 =
      Except.error (HErr.http 400 "Unknown track ids: [99]") ∧
    (update_playlist stBase uA 1 ⟨some "New", some [99]⟩ "t1").2.rawPlaylists =
      [⟨1, 1, "New", [1], "t0", "t0"⟩] ∧
    stBase.rawPlaylists = [⟨1, 1, "Old", [1], "t0", "t0"⟩] ∧
    (update_playlist stBase uA 1 ⟨some "New", some [99]⟩ "t1").2.savedPlaylists =
      stBase.savedPlaylists := by
  refine ⟨?_, ?_, ?_, ?_⟩ <;> rfl

/-- Claim C1 (amended): an owner update supplying any track id not in the
catalog fails with 400 InvalidInput naming the offending ids; the persisted
playlist set, the users and the stored playlist's tracks/updated_at (and id,
user_id, created_at) are unchanged — but when a new name was supplied in the
same request it has already been written to the stored playlist before
validation, so the stored name is the trimmed new name, not the old one. -/
theorem C1_update_unknown_tracks
    (st : ServerState) (current : User) (pid : Int) (nm : Option String)
    (ts : List Int) (now : String) (pl : Playlist)
    (hfind : st.rawPlaylists.find? (fun q => q.id = pid) = some pl)
    (howner : pl.user_id = current.id)
    (hbad : (ts.filter (fun tid => ¬ tid ∈ st.trackIds)).isEmpty = false) :
    update_playlist st current pid ⟨nm, some ts⟩ now =
      (Except.error (HErr.http 400
          ("Unknown track ids: " ++ toString (ts.filter (fun tid => ¬ tid ∈ st.trackIds)))),
        { st with rawPlaylists := (setFirstById st.rawPlaylists pid
            (match nm with | some n => { pl with name := pyStrip n } | none => pl)) }) := by
  have hget := get_playlist_or_404_of_find _ _ _ hfind
  have hown : assert_owner pl current = Except.ok () := by
    unfold assert_owner
    rw [if_neg (by simp [howner])]
  have hval : validate_track_ids st.trackIds ts =
      Except.error (HErr.http 400
        ("Unknown track ids: " ++ toString (ts.filter (fun tid => ¬ tid ∈ st.trackIds)))) := by
    simp only [validate_track_ids]
    rw [hbad]
    rfl
  simp only [update_playlist, hget, hown, hval]

/-- Claim C1 witness: the amended theorem applied to the base state, playlist
1, owner A, new name "New" and unknown track id 99. -/
theorem C1_witness :
    stBase.rawPlaylists.find? (fun q => q.id = 1) = some plOld ∧
    plOld.user_id = uA.id ∧
    (([99].filter (fun tid => ¬ tid ∈ stBase.trackIds)).isEmpty = false) ∧
    update_playlist stBase uA 1 ⟨some "New", some [99]⟩ "t1" =
      (Except.error (HErr.http 400
          ("Unknown track ids: " ++ toString ([99].filter (fun tid => ¬ tid ∈ stBase.trackIds)))),
        { stBase with rawPlaylists := (setFirstById stBase.rawPlaylists 1
            (match some "New" with | some n => { plOld with name := pyStrip n } | none => plOld)) }) :=
  ⟨by decide, by decide, by decide,
    C1_update_unknown_tracks stBase uA 1 (some "New") [99] "t1" plOld
      (by decide) (by decide) (by decide)⟩

/-- Claim C8: partial update semantics — for every existing playlist and
every update by its owner (track ids valid when supplied), a field is changed
only when supplied (omitted fields keep their stored values), `updated_at` is
set to the current time on every successful update (even when nothing else
changes), `id`, `user_id` and `created_at` are never changed, and the result
is stored (first slot with the id) and persisted. -/
theorem C8_partial_update_semantics
    (st : ServerState) (current : User) (pid : Int) (nm : Option String)
    (ts : Option (List Int)) (now : String) (pl : Playlist)
    (hfind : st.rawPlaylists.find? (fun q => q.id = pid) = some pl)
    (howner : pl.user_id = current.id)
    (hval : ∀ l, ts = some l → (l.filter (fun tid => ¬ tid ∈ st.trackIds)).isEmpty = true) :
    ∃ pl3,
      update_playlist st current pid ⟨nm, ts⟩ now =
        (Except.ok pl3,
          { st with rawPlaylists := setFirstById st.rawPlaylists pid pl3,
                    savedPlaylists := setFirstById st.rawPlaylists pid pl3 }) ∧
      pl3.id = pl.id ∧ pl3.user_id = pl.user_id ∧ pl3.created_at = pl.created_at ∧
      pl3.name = (match nm with | some n => pyStrip n | none => pl.name) ∧
      pl3.tracks = (match ts with | some l => l | none => pl.tracks) ∧
      pl3.updated_at = now ∧
      get_playlist_or_404
        (update_playlist st current pid ⟨nm, ts⟩ now).2.rawPlaylists pid =
        Except.ok pl3 := by
  have hplid : pl.id = pid := id_eq_of_find _ _ _ hfind
  have hget := get_playlist_or_404_of_find _ _ _ hfind
  have hown := assert_owner_ok pl current howner
  cases nm with
  | none =>
    cases ts with
    | none =>
      refine ⟨{ pl with updated_at := now }, ?_, rfl, rfl, rfl, rfl, rfl, rfl, ?_⟩
      · simp only [update_playlist, hget, hown]
        rw [setFirstById_setFirstById st.rawPlaylists pid pl _ hplid]
      · simp only [update_playlist, hget, hown]
        rw [setFirstById_setFirstById st.rawPlaylists pid pl _ hplid]
        exact get_playlist_or_404_of_find _ _ _
          (find?_setFirstById st.rawPlaylists pid pl _ hfind hplid)
    | some l =>
      have hvok := validate_track_ids_ok st.trackIds l (hval l rfl)
      refine ⟨{ pl with tracks := l, updated_at := now }, ?_, rfl, rfl, rfl, rfl, rfl, rfl, ?_⟩
      · simp only [update_playlist, hget, hown, hvok]
        rw [setFirstById_setFirstById st.rawPlaylists pid pl _ hplid]
      · simp only [update_playlist, hget, hown, hvok]
        rw [setFirstById_setFirstById st.rawPlaylists pid pl _ hplid]
        exact get_playlist_or_404_of_find _ _ _
          (find?_setFirstById st.rawPlaylists pid pl _ hfind hplid)
  | some n =>
    have hpl1id : ({ pl with name := pyStrip n } : Playlist).id = pid := hplid
    cases ts with
    | none =>
      refine ⟨{ pl with name := pyStrip n, updated_at := now }, ?_, rfl, rfl, rfl, rfl, rfl,
        rfl, ?_⟩
      · simp only [update_playlist, hget, hown]
        rw [setFirstById_setFirstById st.rawPlaylists pid _ _ hpl1id]
      · simp only [update_playlist, hget, hown]
        rw [setFirstById_setFirstById st.rawPlaylists pid _ _ hpl1id]
        exact get_playlist_or_404_of_find _ _ _
          (find?_setFirstById st.rawPlaylists pid pl _ hfind hplid)
    | some l =>
      have hvok := validate_track_ids_ok st.trackIds l (hval l rfl)
      refine ⟨{ pl with name := pyStrip n, tracks := l, updated_at := now }, ?_, rfl, rfl,
        rfl, rfl, rfl, rfl, ?_⟩
      · simp only [update_playlist, hget, hown, hvok]
        rw [setFirstById_setFirstById st.rawPlaylists pid _ _ hpl1id]
      · simp only [update_playlist, hget, hown, hvok]
        rw [setFirstById_setFirstById st.rawPlaylists pid _ _ hpl1id]
        exact get_playlist_or_404_of_find _ _ _
          (find?_setFirstById st.rawPlaylists pid pl _ hfind hplid)

/-- Claim C8 witness: owner A renames playlist 1 with tracks omitted — the
prior tracks value is preserved and `updated_at` is refreshed. -/
theorem C8_witness :
    stBase.rawPlaylists.find? (fun q => q.id = 1) = some plOld ∧
    plOld.user_id = uA.id ∧
    (∀ l, (none : Option (List Int)) = some l →
      (l.filter (fun tid => ¬ tid ∈ stBase.trackIds)).isEmpty = true) ∧
    (∃ pl3,
      update_playlist stBase uA 1 ⟨some "New", none⟩ "t1" =
        (Except.ok pl3,
          { stBase with rawPlaylists := setFirstById stBase.rawPlaylists 1 pl3,
                        savedPlaylists := setFirstById stBase.rawPlaylists 1 pl3 }) ∧
      pl3.id = plOld.id ∧ pl3.user_id = plOld.user_id ∧ pl3.created_at = plOld.created_at ∧
      pl3.name = (match some "New" with | some n => pyStrip n | none => plOld.name) ∧
      pl3.tracks = (match (none : Option (List Int)) with | some l => l | none => plOld.tracks) ∧
      pl3.updated_at = "t1" ∧
      get_playlist_or_404
        (update_playlist stBase uA 1 ⟨some "New", none⟩ "t1").2.rawPlaylists 1 =
        Except.ok pl3) :=
  ⟨by decide, by decide, (by intro l h; cases h),
    C8_partial_update_semantics stBase uA 1 (some "New") none "t1" plOld
      (by decide) (by decide) (by intro l h; cases h)⟩

/-- Claim C3 counterexample: starting from a state with no playlists, create
assigns id 1; after the owner deletes playlist 1, a second create assigns id 1
again — a newly assigned id equals an id previously assigned to a
since-deleted playlist, so the no-reuse part of the claim is false. -/
theorem C3_counterexample :
    (create_playlist stNoPl uA ⟨"Mix", []⟩ "t0").1 =
      Except.ok ⟨1, 1, "Mix", [], "t0", "t0"⟩ ∧
    (delete_playlist (create_playlist stNoPl uA ⟨"Mix", []⟩ "t0").2 uA 1).1 =
      Except.ok () ∧
    (create_playlist
        (delete_playlist (create_playlist stNoPl uA ⟨"Mix", []⟩ "t0").2 uA 1).2
        uA ⟨"Second", []⟩ "t1").1 =
      Except.ok ⟨1, 1, "Second", [], "t1", "t1"⟩ := by
  refine ⟨?_, ?_, ?_⟩ <;> rfl

/-- Claim C3 (amended): create assigns id = (max existing id, default 0) + 1,
which is strictly greater than every currently stored playlist id (hence
unique among stored playlists, and positive whenever all stored ids are);
ids of since-deleted playlists are NOT protected and can be reassigned. -/
theorem C3_create_id_max_plus_one
    (st : ServerState) (current : User) (body : PlaylistIn) (now : String)
    (hok : (body.tracks.filter (fun tid => ¬ tid ∈ st.trackIds)).isEmpty = true) :
    ∃ pl, (create_playlist st current body now).1 = Except.ok pl ∧
      pl.id = next_playlist_id st.rawPlaylists ∧
      (∀ p ∈ st.rawPlaylists, p.id < pl.id) ∧
      ((∀ p ∈ st.rawPlaylists, 0 < p.id) → 0 < pl.id) := by
  have hvok := validate_track_ids_ok st.trackIds body.tracks hok
  refine ⟨⟨next_playlist_id st.rawPlaylists, current.id, pyStrip body.name,
      body.tracks, now, now⟩, ?_, rfl, ?_, ?_⟩
  · simp only [create_playlist, hvok]
  · intro p hp
    exact id_lt_next_playlist_id st.rawPlaylists p hp
  · intro hpos
    show 0 < next_playlist_id st.rawPlaylists
    cases hps : st.rawPlaylists with
    | nil => decide
    | cons q rest =>
      have hq : q ∈ st.rawPlaylists := by rw [hps]; exact List.mem_cons_self q rest
      have h1 := id_lt_next_playlist_id st.rawPlaylists q hq
      have h2 := hpos q hq
      rw [hps] at h1
      omega

/-- Claim C3 witness: creating in the base state (playlist ids ≤ 1, catalog
track 1) assigns id 2 = max + 1, above every stored id. -/
theorem C3_witness :
    (([] : List Int).filter (fun tid => ¬ tid ∈ stBase.trackIds)).isEmpty = true ∧
    (∃ pl, (create_playlist stBase uA ⟨"Mix", []⟩ "t2").1 = Except.ok pl ∧
      pl.id = next_playlist_id stBase.rawPlaylists ∧
      (∀ p ∈ stBase.rawPlaylists, p.id < pl.id) ∧
      ((∀ p ∈ stBase.rawPlaylists, 0 < p.id) → 0 < pl.id)) :=
  ⟨by decide, C3_create_id_max_plus_one stBase uA ⟨"Mix", []⟩ "t2" (by decide)⟩

/-- Claim C4 counterexample: creating a playlist with the whitespace-only name
"   " succeeds and persists a playlist whose name is the empty string — so the
invariant that stored playlists have a non-empty trimmed name is false. -/
theorem C4_counterexample :
    (create_playlist stNoPl uA ⟨"   ", []⟩ "t0").1 =
      Except.ok ⟨1, 1, "", [], "t0", "t0"⟩ ∧
    (create_playlist stNoPl uA ⟨"   ", []⟩ "t0").2.savedPlaylists =
      [⟨1, 1, "", [], "t0", "t0"⟩] := by
  refine ⟨?_, ?_⟩ <;> rfl

/-- Claim C4 (amended): create and update strip the supplied name and store
the result with no non-emptiness check: any name whose stripped form is empty
is stored and persisted as the empty string. -/
theorem C4_name_stripped_without_check
    (st : ServerState) (current : User) (body : PlaylistIn) (now : String)
    (hok : (body.tracks.filter (fun tid => ¬ tid ∈ st.trackIds)).isEmpty = true) :
    (∃ pl, (create_playlist st current body now).1 = Except.ok pl ∧
      pl.name = pyStrip body.name ∧
      pl ∈ (create_playlist st current body now).2.rawPlaylists ∧
      pl ∈ (create_playlist st current body now).2.savedPlaylists) ∧
    (∀ pid pl0 n, st.rawPlaylists.find? (fun q => q.id = pid) = some pl0 →
      pl0.user_id = current.id →
      ∃ r, (update_playlist st current pid ⟨some n, none⟩ now).1 = Except.ok r ∧
        r.name = pyStrip n) := by
  have hvok := validate_track_ids_ok st.trackIds body.tracks hok
  constructor
  · refine ⟨⟨next_playlist_id st.rawPlaylists, current.id, pyStrip body.name,
        body.tracks, now, now⟩, ?_, rfl, ?_, ?_⟩
    · simp only [create_playlist, hvok]
    · simp only [create_playlist, hvok]
      exact List.mem_append_right _ (List.mem_singleton.mpr rfl)
    · simp only [create_playlist, hvok]
      exact List.mem_append_right _ (List.mem_singleton.mpr rfl)
  · intro pid pl0 n hfind howner
    have hget := get_playlist_or_404_of_find _ _ _ hfind
    have hown := assert_owner_ok pl0 current howner
    refine ⟨{ pl0 with name := pyStrip n, updated_at := now }, ?_, rfl⟩
    simp only [update_playlist, hget, hown]

/-- Claim C4 witness: the amended theorem applied in the no-playlist state
with the whitespace-only name (stripping to "") and in the base state for the
update half. -/
theorem C4_witness :
    (([] : List Int).filter (fun tid => ¬ tid ∈ stNoPl.trackIds)).isEmpty = true ∧
    (∃ pl, (create_playlist stNoPl uA ⟨"   ", []⟩ "t0").1 = Except.ok pl ∧
      pl.name = pyStrip "   " ∧
      pl ∈ (create_playlist stNoPl uA ⟨"   ", []⟩ "t0").2.rawPlaylists ∧
      pl ∈ (create_playlist stNoPl uA ⟨"   ", []⟩ "t0").2.savedPlaylists) :=
  ⟨by decide,
    (C4_name_stripped_without_check stNoPl uA ⟨"   ", []⟩ "t0" (by decide)).1⟩

/-- Claim C6: signup with a fresh email and a password of at least 6
characters succeeds; afterwards the user is retrievable by that email — and by
any case/whitespace variant with the same lowered, stripped form — and login
with that email and the original password succeeds, returning the same user. -/
theorem C6_signup_then_lookup_and_login
    (st : ServerState) (body : SignupIn) (secret : String) (now tl : Nat)
    (hfresh : lookupEmail st.usersByEmail (pyStrip (pyLower body.email)) = none)
    (hlen : 6 ≤ body.password.length) :
    ∃ tok u,
      (signup st body secret now).1 = Except.ok (tok, u) ∧
      find_by_email (signup st body secret now).2 body.email = some u ∧
      (∀ e2, pyStrip (pyLower e2) = pyStrip (pyLower body.email) →
        find_by_email (signup st body secret now).2 e2 = some u) ∧
      (∃ tok2,
        login (signup st body secret now).2 ⟨body.email, body.password⟩ secret tl =
          Except.ok (tok2, u)) := by
  have hnot : ¬ body.password.length < 6 := by omega
  have hrun : signup st body secret now =
      (Except.ok
          (create_access_token (some (pyStrOfInt (next_user_id st.rawUsers))) secret now none,
            ⟨next_user_id st.rawUsers, pyStrip (pyLower body.email),
              hash_password body.password,
              if body.name = "" then emailLocalPart (pyStrip (pyLower body.email)) else body.name,
              "user"⟩),
        { st with
            rawUsers := st.rawUsers ++
              [⟨next_user_id st.rawUsers, pyStrip (pyLower body.email),
                hash_password body.password,
                if body.name = "" then emailLocalPart (pyStrip (pyLower body.email)) else body.name,
                "user"⟩]
            usersByEmail := st.usersByEmail ++
              [(pyStrip (pyLower body.email),
                ⟨next_user_id st.rawUsers, pyStrip (pyLower body.email),
                  hash_password body.password,
                  if body.name = "" then emailLocalPart (pyStrip (pyLower body.email)) else body.name,
                  "user"⟩)]
            savedUsers := st.rawUsers ++
              [⟨next_user_id st.rawUsers, pyStrip (pyLower body.email),
                hash_password body.password,
                if body.name = "" then emailLocalPart (pyStrip (pyLower body.email)) else body.name,
                "user"⟩] }) := by
    simp only [signup, hfresh]
    rw [if_neg hnot]
  refine ⟨create_access_token (some (pyStrOfInt (next_user_id st.rawUsers))) secret now none,
    ⟨next_user_id st.rawUsers, pyStrip (pyLower body.email), hash_password body.password,
      if body.name = "" then emailLocalPart (pyStrip (pyLower body.email)) else body.name,
      "user"⟩, ?_, ?_, ?_, ?_⟩
  · rw [hrun]
  · rw [hrun]
    exact lookupEmail_append_right st.usersByEmail (pyStrip (pyLower body.email)) _ hfresh
  · intro e2 he2
    rw [hrun]
    show lookupEmail _ (pyStrip (pyLower e2)) = _
    rw [he2]
    exact lookupEmail_append_right st.usersByEmail (pyStrip (pyLower body.email)) _ hfresh
  · refine ⟨create_access_token (some (pyStrOfInt (next_user_id st.rawUsers))) secret tl none, ?_⟩
    rw [hrun]
    simp only [login]
    rw [show lookupEmail
        (st.usersByEmail ++
          [(pyStrip (pyLower body.email),
            ⟨next_user_id st.rawUsers, pyStrip (pyLower body.email),
              hash_password body.password,
              if body.name = "" then emailLocalPart (pyStrip (pyLower body.email)) else body.name,
              "user"⟩)])
        (pyStrip (pyLower body.email)) = _ from
      lookupEmail_append_right st.usersByEmail (pyStrip (pyLower body.email)) _ hfresh]
    simp [verify_password, pwd_context_verify, hash_password]

/-- Claim C6 witness: signing up `A@X.com` with password `secret1` in the
empty state; retrieval by the variant spelling ` a@X.COM ` and login both
return the created user. -/
theorem C6_witness :
    lookupEmail stEmpty.usersByEmail (pyStrip (pyLower "A@X.com")) = none ∧
    6 ≤ ("secret1" : String).length ∧
    (∃ tok u,
      (signup stEmpty ⟨"A@X.com", "secret1", ""⟩ "sek" 0).1 = Except.ok (tok, u) ∧
      find_by_email (signup stEmpty ⟨"A@X.com", "secret1", ""⟩ "sek" 0).2 "A@X.com" = some u ∧
      (∀ e2, pyStrip (pyLower e2) = pyStrip (pyLower "A@X.com") →
        find_by_email (signup stEmpty ⟨"A@X.com", "secret1", ""⟩ "sek" 0).2 e2 = some u) ∧
      (∃ tok2,
        login (signup stEmpty ⟨"A@X.com", "secret1", ""⟩ "sek" 0).2
          ⟨"A@X.com", "secret1"⟩ "sek" 99 = Except.ok (tok2, u))) :=
  ⟨rfl, by decide,
    C6_signup_then_lookup_and_login stEmpty ⟨"A@X.com", "secret1", ""⟩ "sek" 0 99
      rfl (by decide)⟩

/-- Claim C7: token round-trip — for every user present in the repository, a
token issued for its id (as `create_access_token` is called by login/signup,
with the default expiry window) and validated later with the same secret while
the expiry is still in the future resolves to a user with exactly that id. -/
theorem C7_token_roundtrip
    (st : ServerState) (u : User) (secret : String) (tIssue tCheck : Nat)
    (hmem : u ∈ st.rawUsers)
    (hfuture : tCheck < tIssue + ACCESS_TOKEN_EXPIRE_MINUTES * 60) :
    ∃ u2, get_current_user st
        (some (create_access_token (some (pyStrOfInt u.id)) secret tIssue none))
        secret tCheck = Except.ok u2 ∧ u2.id = u.id ∧ u2 ∈ st.rawUsers := by
  obtain ⟨u2, hloop, hid, hm2⟩ := find_user_loop_finds st.rawUsers (pyStrOfInt u.id) u.id
    (pyInt_pyStrOfInt u.id) ⟨u, hmem, rfl⟩
  refine ⟨u2, ?_, hid, hm2⟩
  have hdec : jwt_decode (create_access_token (some (pyStrOfInt u.id)) secret tIssue none)
      secret tCheck =
      some { sub := some (pyStrOfInt u.id), exp := tIssue + ACCESS_TOKEN_EXPIRE_MINUTES * 60 } := by
    simp [jwt_decode, create_access_token, jwt_encode, hfuture]
  simp only [get_current_user, hdec, hloop]

/-- Claim C7 witness: user B (id 2) in the base state; a token issued at time
0 validates at time 10 and resolves to id 2. -/
theorem C7_witness :
    uB ∈ stBase.rawUsers ∧ (10 : Nat) < 0 + ACCESS_TOKEN_EXPIRE_MINUTES * 60 ∧
    (∃ u2, get_current_user stBase
        (some (create_access_token (some (pyStrOfInt uB.id)) "sek" 0 none)) "sek" 10 =
        Except.ok u2 ∧ u2.id = uB.id ∧ u2 ∈ stBase.rawUsers) :=
  ⟨by decide, by decide, C7_token_roundtrip stBase uB "sek" 0 10 (by decide) (by decide)⟩

/-- Claim C9 counterexample: with an empty user repository, a token with valid
signature and future expiry whose subject "abc" does not parse as an integer
still yields 401 Unauthorized ("User not found") — the `int(uid)` conversion
sits inside the per-user loop, which never runs — so the claim that session
resolution never returns Unauthorized for such tokens is false as stated. -/
theorem C9_counterexample :
    jwt_decode (create_access_token (some "abc") "sek" 0 none) "sek" 10 =
      some { sub := some "abc", exp := 3600 } ∧
    pyInt "abc" = none ∧
    get_current_user stEmpty (some (create_access_token (some "abc") "sek" 0 none))
      "sek" 10 = Except.error (HErr.http 401 "User not found") := by
  refine ⟨rfl, rfl, rfl⟩

/-- Claim C9 (amended): whenever the user repository is non-empty, a token
with valid signature and future expiry whose subject does not parse as an
integer makes `get_current_user` raise the unhandled `ValueError` from
`int(uid)` (first loop iteration) instead of any 401 response; only with an
empty repository is the conversion never reached (and 401 returned). -/
theorem C9_nonnumeric_subject_value_error
    (st : ServerState) (tok : Token) (secret : String) (now : Nat) (s : String)
    (hne : st.rawUsers ≠ [])
    (hsig : tok.sig = secret) (hexp : now < tok.claims.exp)
    (hsub : tok.claims.sub = some s) (hbad : pyInt s = none) :
    get_current_user st (some tok) secret now =
      Except.error (HErr.valueError ("invalid literal for int with base 10: " ++ s)) := by
  have hdec : jwt_decode tok secret now = some tok.claims := by
    simp [jwt_decode, hsig, hexp]
  cases hu : st.rawUsers with
  | nil => exact absurd hu hne
  | cons u0 us =>
    simp only [get_current_user, hdec, hsub, hu, find_user_loop, hbad]

/-- Claim C9 witness: the amended theorem at the base state (two users) with a
valid token whose subject is "abc". -/
theorem C9_witness :
    stBase.rawUsers ≠ [] ∧
    (create_access_token (some "abc") "sek" 0 none).sig = "sek" ∧
    (10 : Nat) < (create_access_token (some "abc") "sek" 0 none).claims.exp ∧
    (create_access_token (some "abc") "sek" 0 none).claims.sub = some "abc" ∧
    pyInt "abc" = none ∧
    get_current_user stBase (some (create_access_token (some "abc") "sek" 0 none))
      "sek" 10 = Except.error (HErr.valueError ("invalid literal for int with base 10: " ++ "abc")) :=
  ⟨by decide, rfl, by decide, rfl, rfl,
    C9_nonnumeric_subject_value_error stBase (create_access_token (some "abc") "sek" 0 none)
      "sek" 10 "abc" (by decide) rfl (by decide) rfl rfl⟩

/-- Claim C10: signup checks the duplicate email (case-insensitively, on the
lowered and stripped form) before the password-length rule, so a request with
a registered email always yields the duplicate-email error regardless of the
password, and a fresh email with a short password yields the weak-password
error; in both failure cases the state is returned unchanged. -/
theorem C10_signup_duplicate_email_precedence
    (st : ServerState) (body : SignupIn) (secret : String) (now : Nat) :
    (∀ u, lookupEmail st.usersByEmail (pyStrip (pyLower body.email)) = some u →
      signup st body secret now =
        (Except.error (HErr.http 400 "Email already registered"), st)) ∧
    (lookupEmail st.usersByEmail (pyStrip (pyLower body.email)) = none →
      body.password.length < 6 →
      signup st body secret now =
        (Except.error (HErr.http 400 "Password must be at least 6 characters"), st)) := by
  constructor
  · intro u hdup
    simp only [signup, hdup]
  · intro hfresh hshort
    simp only [signup, hfresh]
    rw [if_pos hshort]

/-- Claim C10 witness: in the base state, signup with the registered email
`a@x.com` and the 1-character password "x" fails with the duplicate-email
error (not the weak-password error) and leaves the state unchanged; in the
empty state the same short password fails with the weak-password error. -/
theorem C10_witness :
    lookupEmail stBase.usersByEmail (pyStrip (pyLower "a@x.com")) = some uA ∧
    ("x" : String).length < 6 ∧
    signup stBase ⟨"a@x.com", "x", ""⟩ "sek" 0 =
      (Except.error (HErr.http 400 "Email already registered"), stBase) ∧
    signup stEmpty ⟨"a@x.com", "x", ""⟩ "sek" 0 =
      (Except.error (HErr.http 400 "Password must be at least 6 characters"), stEmpty) :=
  ⟨rfl, by decide,
    (C10_signup_duplicate_email_precedence stBase ⟨"a@x.com", "x", ""⟩ "sek" 0).1 uA rfl,
    (C10_signup_duplicate_email_precedence stEmpty ⟨"a@x.com", "x", ""⟩ "sek" 0).2 rfl
      (by decide)⟩

end Spotifaux

